import Mathlib

/-!
Shallow embedding of the dynamic tool-compilation and execution engine of
`src/core/tool_compiler.py` (classes `ToolContext`, `CompiledTool`, `ToolCompiler`,
`SecurityError`) and of the read-only loader `src/core/tool_loader.py`
(`ToolLoader.load_tool`).

Conventions of the embedding:
* Python strings are Lean `String`s; scanning is done over `String.data`
  (`List Char`).
* The regular expressions of `ToolCompiler.dangerous_patterns` and the
  `re.findall(r"import\s+(\w+)", code)` extraction are modelled by executable
  matchers over `List Char` that implement exactly those patterns (ASCII
  reading of the character classes `\s`, `\w`, `\b`).
* Each Python `raise` site becomes a constructor of an error type carrying the
  data interpolated into the exception message.
* `exec`-ing the tool source to obtain the `execute` callable is host-language
  behaviour; it is abstracted as a parameter `pyExec : String → Option α`
  (`none` models an exception escaping `_compile_code`).
* The mutable `self.compiled_cache` dict is threaded explicitly as an
  association list; `datetime.utcnow()` is an explicit `now : Nat` parameter.
-/

namespace McpServer

/-! ## Character classes and literal matching (models of `re` constructs) -/

/-- Model of the regex class `\w` (ASCII reading): letters, digits, underscore. -/
def isWordChar (c : Char) : Bool :=
  c.isAlpha || c.isDigit || c = '_'

/-- Model of the regex class `\s` (ASCII reading): the whitespace characters. -/
def isSpaceChar (c : Char) : Bool :=
  c = ' ' || c = '\t' || c = '\n' || c = '\r' || c = '\x0b' || c = '\x0c'

/-- Match a literal character sequence at the head; return the remainder. -/
def litAt : List Char → List Char → Option (List Char)
  | [], rest => some rest
  | _ :: _, [] => none
  | a :: as, b :: bs => if a = b then litAt as bs else none

/-- Drop a maximal (greedy) run of whitespace: the regex `\s*`. -/
def dropSpaces : List Char → List Char
  | [] => []
  | c :: cs => if isSpaceChar c then dropSpaces cs else c :: cs

/-- Match the regex `\s+` greedily; `none` when no leading whitespace. -/
def spaces1 : List Char → Option (List Char)
  | [] => none
  | c :: cs => if isSpaceChar c then some (dropSpaces cs) else none

/-- Take a maximal (greedy) run of word characters: the capture `(\w+)`. -/
def takeWordRun : List Char → List Char × List Char
  | [] => ([], [])
  | c :: cs =>
    if isWordChar c then
      let (w, r) := takeWordRun cs
      (c :: w, r)
    else ([], c :: cs)

/-- Word boundary `\b` after a word character: next char absent or non-word. -/
def atWordBoundary : List Char → Bool
  | [] => true
  | c :: _ => !isWordChar c

/-- Does `needle` occur at the head of the second list? -/
def isPrefixL : List Char → List Char → Bool
  | [], _ => true
  | _ :: _, [] => false
  | a :: as, b :: bs => a = b && isPrefixL as bs

/-- Model of Python `needle in haystack`: substring occurrence. -/
def containsSub (needle : List Char) : List Char → Bool
  | [] => isPrefixL needle []
  | c :: rest => isPrefixL needle (c :: rest) || containsSub needle rest

/-- Number of positions at which `needle` occurs in the list. -/
def countSub (needle : List Char) : List Char → Nat
  | [] => if isPrefixL needle [] then 1 else 0
  | c :: rest => (if isPrefixL needle (c :: rest) then 1 else 0) + countSub needle rest

/-! ## The denylist patterns of `ToolCompiler.dangerous_patterns` -/

/-- Matcher for `import\s+MOD\b` at a position (used for `os` and `sys`). -/
def matchImportModAt (modname : List Char) (cs : List Char) : Bool :=
  match litAt "import".data cs with
  | none => false
  | some r1 =>
    match spaces1 r1 with
    | none => false
    | some r2 =>
      match litAt modname r2 with
      | none => false
      | some r3 => atWordBoundary r3

/-- Matcher for `KW\s*\(` at a position (used for `exec` and `eval`). -/
def matchCallAt (keyword : List Char) (cs : List Char) : Bool :=
  match litAt keyword cs with
  | none => false
  | some r1 =>
    match dropSpaces r1 with
    | '(' :: _ => true
    | _ => false

/-- Matcher for `\bKW\s*\(` at a position (used for `open` and `file`):
the preceding character, when present, must not be a word character. -/
def matchBCallAt (keyword : List Char) (prev : Option Char) (cs : List Char) : Bool :=
  (match prev with
   | none => true
   | some p => !isWordChar p) && matchCallAt keyword cs

/-- Try a position matcher at every position, tracking the previous character
(for `\b` at pattern start).  Models `re.search`. -/
def searchFrom (matchAt : Option Char → List Char → Bool) :
    Option Char → List Char → Bool
  | _, [] => false
  | prev, c :: cs => matchAt prev (c :: cs) || searchFrom matchAt (some c) cs

/-- Search the whole text, starting with no previous character. -/
def searchPat (matchAt : Option Char → List Char → Bool) (s : List Char) : Bool :=
  searchFrom matchAt none s

/-- The denylist of `ToolCompiler.dangerous_patterns`, in source order: each
entry pairs the regex source text (which the raised `SecurityError` names) with
its matcher.  `re.IGNORECASE` is modelled by running the matchers on the
lowercased text (every literal in the patterns is lowercase). -/
def dangerous_patterns : List (String × (Option Char → List Char → Bool)) :=
  [ ("import\\s+os\\b", fun _ cs => matchImportModAt "os".data cs),
    ("import\\s+sys\\b", fun _ cs => matchImportModAt "sys".data cs),
    ("__import__", fun _ cs => (litAt "__import__".data cs).isSome),
    ("exec\\s*\\(", fun _ cs => matchCallAt "exec".data cs),
    ("eval\\s*\\(", fun _ cs => matchCallAt "eval".data cs),
    ("\\bopen\\s*\\(", fun p cs => matchBCallAt "open".data p cs),
    ("\\bfile\\s*\\(", fun p cs => matchBCallAt "file".data p cs),
    ("subprocess", fun _ cs => (litAt "subprocess".data cs).isSome) ]

/-- First denylisted pattern (in source order) matching the code, if any:
the loop `for pattern in self.dangerous_patterns: if re.search(pattern, code,
re.IGNORECASE)`. -/
def findDangerous (code : String) : Option String :=
  (dangerous_patterns.find? (fun pr => searchPat pr.2 (code.data.map Char.toLower))).map (·.1)

/-! ## Import extraction: `re.findall(r"import\s+(\w+)", code)` -/

/-- Match `import\s+(\w+)` at the current position; on success return the
captured module name and the remainder after the match. -/
def matchImportCapture (cs : List Char) : Option (String × List Char) :=
  match litAt "import".data cs with
  | none => none
  | some r1 =>
    match spaces1 r1 with
    | none => none
    | some r2 =>
      match takeWordRun r2 with
      | ([], _) => none
      | (w, rest) => some (String.mk w, rest)

/-- Left-to-right, non-overlapping scan as `re.findall` performs: on a match,
scanning resumes after the match; otherwise it advances one character.  Fuel is
the text length; every step consumes at least one character. -/
def findImportsAux : Nat → List Char → List String
  | 0, _ => []
  | _, [] => []
  | fuel + 1, c :: cs =>
    match matchImportCapture (c :: cs) with
    | some (m, rest) => m :: findImportsAux fuel rest
    | none => findImportsAux fuel cs

/-- All module names captured by `re.findall(r"import\s+(\w+)", code)`. -/
def findImports (code : String) : List String :=
  findImportsAux code.data.length code.data

/-- The import allowlist `ToolCompiler.allowed_imports`. -/
def allowed_imports : List String :=
  ["json", "datetime", "re", "math", "uuid", "hashlib", "asyncio"]

/-! ## The validator `ToolCompiler._validate_code_safety` -/

/-- One constructor per `raise` site of `_validate_code_safety`:
`dangerousPattern` and `disallowedImport` are the two `SecurityError`s (the
spec's SecurityViolation), `missingExecute` is the `ValueError` for a source
lacking `def execute(` (the spec's StructuralViolation).  Each carries the
data interpolated into the exception message. -/
inductive ValidationError where
  | dangerousPattern (toolId pat : String)
  | disallowedImport (toolId moduleName : String)
  | missingExecute (toolId : String)
deriving DecidableEq, Repr

/-- Model of `_validate_code_safety(code, tool_id)`: denylist scan first, then
the import allowlist, then the `'def execute(' not in code` structural check;
`none` means validation passed. -/
def validate_code_safety (code toolId : String) : Option ValidationError :=
  match findDangerous code with
  | some pat => some (.dangerousPattern toolId pat)
  | none =>
    match (findImports code).find? (fun m => !(allowed_imports.contains m)) with
    | some m => some (.disallowedImport toolId m)
    | none =>
      if containsSub "def execute(".data code.data then none
      else some (.missingExecute toolId)

/-! ## Content digest

`compile_tool` computes `hashlib.sha256(code.encode()).hexdigest()`.  The
stdlib hash is modelled by a fixed executable digest of the text (FNV-1a, 64
bit, rendered as hex); the development uses only that it is a deterministic
function of the source text, which is all the cache-staleness logic relies on. -/

/-- One FNV-1a step over a byte, with 64-bit wraparound made explicit. -/
def fnvStep (acc b : Nat) : Nat :=
  ((acc ^^^ b % 256) * 1099511628211) % (2 ^ 64)

/-- Fold the digest over the characters of the text. -/
def fnvAcc : Nat → List Char → Nat
  | acc, [] => acc
  | acc, c :: cs => fnvAcc (fnvStep acc c.toNat) cs

/-- The sixteen lowercase hex digits. -/
def hexDigits : List Char := "0123456789abcdef".data

/-- Render the low `k` hex digits of `n`, most significant first. -/
def toHexAux : Nat → Nat → List Char → List Char
  | 0, _, acc => acc
  | k + 1, n, acc => toHexAux k (n / 16) (hexDigits.getD (n % 16) '0' :: acc)

/-- Model of `hashlib.sha256(code.encode()).hexdigest()`: a deterministic hex
digest of the source text. -/
def digestHex (s : String) : String :=
  String.mk (toHexAux 16 (fnvAcc (14695981039346656037 % 2 ^ 64) s.data) [])

/-! ## Tool documents, compiled tools and the compilation cache -/

/-- The fields of the database document `tool_doc` that `compile_tool` reads
(`tool_id`, `name`, `code`, `input_schema`).  The schema payload is opaque to
the engine and kept as a string. -/
structure ToolDoc where
  tool_id : String
  name : String
  code : String
  input_schema : String
deriving DecidableEq, Repr

/-- The class `CompiledTool`: `func` is the entry point extracted by
`_compile_code`, of a type `α` chosen per execution model; `compiled_at`
records the `datetime.utcnow()` instant as an abstract tick. -/
structure CompiledTool (α : Type) where
  tool_id : String
  name : String
  func : α
  input_schema : String
  code_hash : String
  compiled_at : Nat
deriving DecidableEq, Repr

/-- The dict `self.compiled_cache`, threaded explicitly. -/
abbrev Cache (α : Type) := List (String × CompiledTool α)

/-- Dict lookup `self.compiled_cache.get(tool_id)` / `tool_id in self.compiled_cache`. -/
def cacheGet {α : Type} (c : Cache α) (tid : String) : Option (CompiledTool α) :=
  (c.find? (fun p => p.1 = tid)).map (·.2)

/-- Dict update `self.compiled_cache[tool_id] = compiled_tool`: replaces the
binding for the key, keeping every other binding. -/
def cacheSet {α : Type} : Cache α → String → CompiledTool α → Cache α
  | [], tid, v => [(tid, v)]
  | (k, w) :: rest, tid, v =>
    if k = tid then (tid, v) :: rest else (k, w) :: cacheSet rest tid v

/-- Model of `ToolCompiler.get_compiled_tool`. -/
def get_compiled_tool {α : Type} (c : Cache α) (tid : String) : Option (CompiledTool α) :=
  cacheGet c tid

/-- Model of `ToolCompiler.clear_cache`. -/
def clear_cache {α : Type} (_ : Cache α) : Cache α := []

/-- Equality of `Except` values is decidable when it is for both components
(used to evaluate concrete `compile_tool` outcomes). -/
instance {ε α : Type} [DecidableEq ε] [DecidableEq α] : DecidableEq (Except ε α) := fun x y =>
  match x, y with
  | .ok a, .ok b =>
    if h : a = b then isTrue (by rw [h]) else isFalse (by intro hc; cases hc; exact h rfl)
  | .ok _, .error _ => isFalse (by intro hc; cases hc)
  | .error _, .ok _ => isFalse (by intro hc; cases hc)
  | .error a, .error b =>
    if h : a = b then isTrue (by rw [h]) else isFalse (by intro hc; cases hc; exact h rfl)

/-- Failures of `compile_tool`: a `SecurityError`/`ValueError` from
`_validate_code_safety`, or an exception escaping `_compile_code` (the Python
`exec` of the source, abstracted below). -/
inductive CompileErr where
  | validation (e : ValidationError)
  | buildError (toolId : String)
deriving DecidableEq, Repr

/-- Model of `ToolCompiler.compile_tool(tool_doc)`.  The host-language `exec`
of `_compile_code` is abstracted as `pyExec : String → Option α` (`none` for an
exception escaping the build); `now` is the ambient clock read by the
`CompiledTool` constructor.  Returns the outcome together with the cache after
the call. -/
def compile_tool {α : Type} (pyExec : String → Option α) (now : Nat)
    (cache : Cache α) (doc : ToolDoc) :
    Except CompileErr (CompiledTool α) × Cache α :=
  let code_hash := digestHex doc.code
  let fresh : Except CompileErr (CompiledTool α) × Cache α :=
    match validate_code_safety doc.code doc.tool_id with
    | some e => (.error (.validation e), cache)
    | none =>
      match pyExec doc.code with
      | none => (.error (.buildError doc.tool_id), cache)
      | some f =>
        let ct : CompiledTool α :=
          { tool_id := doc.tool_id, name := doc.name, func := f,
            input_schema := doc.input_schema, code_hash := code_hash,
            compiled_at := now }
        (.ok ct, cacheSet cache doc.tool_id ct)
  match cacheGet cache doc.tool_id with
  | some cached => if cached.code_hash = code_hash then (.ok cached, cache) else fresh
  | none => fresh

/-! ## Execution model A: control flow, nested calls, cycle detection

`ToolCompiler.execute_tool` runs the cached entry point with an injected
`ToolContext`; the entry point may call back through `context.call_tool`.  An
entry-point body is modelled by a small syntax of behaviours: return a value,
raise an exception, or perform a nested `context.call_tool` and continue —
optionally inside a `try`/`except` (the sandbox exposes `Exception`, so tool
code can catch a failed nested call).  This model is time-free; the timeout
wrapper is modelled separately below. -/

inductive Prog where
  | ret (v : String)
  | raiseE (msg : String)
  | invoke (tid : String) (andThen : Prog)
  | invokeCatch (tid : String) (andThen onErr : Prog)
deriving DecidableEq, Repr

/-- The errors observable from `execute_tool` and `ToolContext.call_tool`, one
constructor per raise site, plus the two kinds the specification names that no
code path constructs. -/
inductive ExecErr where
  /-- The `ValueError(f"Tool {tool_id} not compiled")` of `execute_tool`. -/
  | toolNotCompiled (toolId : String)
  /-- The `ValueError` of `ToolContext.call_tool`, carrying the chain text
  interpolated into `"Circular dependency detected: ..."`. -/
  | circular (chain : String)
  /-- An exception raised by the entry-point body, re-raised unchanged by the
  bare `raise` in `execute_tool`'s `except Exception` clause. -/
  | fault (msg : String)
  /-- Modelled from the spec: the `ExecutionError(cause)` wrapper of §7 of the
  specification.  No statement of `tool_compiler.py` constructs such a value;
  the constructor exists so that theorems can speak about it. -/
  | executionError (cause : String)
  /-- Modelled from the spec: the `ToolNotFound` failure of §4.5 of the
  specification.  No statement of `tool_compiler.py` constructs such a value;
  the constructor exists so that theorems can speak about it. -/
  | toolNotFound (toolId : String)
deriving DecidableEq, Repr

/-- Outcome of running a behaviour: a returned value, a propagating exception,
or fuel exhaustion of the model's interpreter. -/
inductive Outcome where
  | ok (v : String)
  | err (e : ExecErr)
  | fuelOut
deriving DecidableEq, Repr

/-- Result of a run: the outcome, the context's `call_stack` after the run, and
the trace of call-stack states observed immediately after each push (the stack
states not in the trace are the starting stack and states restored by pops). -/
structure RunRes where
  out : Outcome
  stack : List String
  trace : List (List String)
deriving DecidableEq, Repr

/-- The chain text `f"{' -> '.join(self.call_stack)} -> {tool_id}"`. -/
def chainStr (st : List String) (tid : String) : String :=
  String.intercalate " -> " st ++ " -> " ++ tid

/-- Interpreter for entry-point behaviours, threading the shared
`ToolContext.call_stack`.  A nested call mirrors `ToolContext.call_tool`
composed with `ToolCompiler.execute_tool`:
1. cycle check `if tool_id in self.call_stack` against the current stack;
2. `self.call_stack.append(tool_id)`;
3. `execute_tool`: look the callee up in `compiled_cache` (raising the
   not-compiled `ValueError` on a miss) and run its `func` with the same
   context;
4. `finally: self.call_stack.pop()` on success and failure alike.
`fuel` bounds the interpreter's recursion depth; it is not part of the code
being modelled. -/
def runProg (cache : Cache Prog) : Nat → Prog → List String → RunRes
  | 0, _, st => ⟨.fuelOut, st, []⟩
  | _ + 1, .ret v, st => ⟨.ok v, st, []⟩
  | _ + 1, .raiseE m, st => ⟨.err (.fault m), st, []⟩
  | fuel + 1, .invoke tid k, st =>
    if tid ∈ st then ⟨.err (.circular (chainStr st tid)), st, []⟩
    else
      let st1 := st ++ [tid]
      let inner : RunRes :=
        match cacheGet cache tid with
        | none => ⟨.err (.toolNotCompiled tid), st1, []⟩
        | some ct => runProg cache fuel ct.func st1
      let st3 := inner.stack.dropLast
      match inner.out with
      | .ok _ =>
        let next := runProg cache fuel k st3
        ⟨next.out, next.stack, st1 :: (inner.trace ++ next.trace)⟩
      | .err e => ⟨.err e, st3, st1 :: inner.trace⟩
      | .fuelOut => ⟨.fuelOut, st3, st1 :: inner.trace⟩
  | fuel + 1, .invokeCatch tid k hnd, st =>
    if tid ∈ st then ⟨.err (.circular (chainStr st tid)), st, []⟩
    else
      let st1 := st ++ [tid]
      let inner : RunRes :=
        match cacheGet cache tid with
        | none => ⟨.err (.toolNotCompiled tid), st1, []⟩
        | some ct => runProg cache fuel ct.func st1
      let st3 := inner.stack.dropLast
      match inner.out with
      | .ok _ =>
        let next := runProg cache fuel k st3
        ⟨next.out, next.stack, st1 :: (inner.trace ++ next.trace)⟩
      | .err _ =>
        let next := runProg cache fuel hnd st3
        ⟨next.out, next.stack, st1 :: (inner.trace ++ next.trace)⟩
      | .fuelOut => ⟨.fuelOut, st3, st1 :: inner.trace⟩

/-- A top-level `execute_tool(tool_id, params, tenant_id)` call (no context
passed): the cache membership check, then creation of a fresh `ToolContext`
with an empty `call_stack`, then the run of the cached entry point.  Returns
the outcome and the push trace.  `ToolCompiler.execute_tool` has no reference
to the tool loader: nothing here consults a tool source. -/
def execute_tool_run (cache : Cache Prog) (fuel : Nat) (tid : String) :
    Outcome × List (List String) :=
  match cacheGet cache tid with
  | none => (.err (.toolNotCompiled tid), [])
  | some ct =>
    let r := runProg cache fuel ct.func []
    (r.out, r.trace)

/-! ## Execution model B: the timeout wrapper

Lines 161–174 of `execute_tool`: a coroutine entry point is awaited through
`asyncio.wait_for(..., timeout=30)`; a plain function is called directly, with
no budget.  A single invocation is abstracted by whether
`asyncio.iscoroutinefunction` holds, the instant at which the entry point
would complete (`none` = never), and the result it would produce. -/

/-- What a completed entry-point call produces: a value or a raised exception. -/
inductive EntryResult where
  | value (v : String)
  | exc (msg : String)
deriving DecidableEq, Repr

structure TimedEntry where
  isCoroutine : Bool
  time : Option Nat
  result : EntryResult
deriving DecidableEq, Repr

/-- How an `execute_tool` invocation ends in real time: completion of the entry
point at an instant, an `asyncio.TimeoutError` raised at an instant, or no
return of control at all. -/
inductive RunOutcome where
  | completes (instant : Nat) (r : EntryResult)
  | timesOut (instant : Nat)
  | diverges
deriving DecidableEq, Repr

/-- The literal `timeout=30` of `execute_tool`. -/
def timeout_budget : Nat := 30

/-- The timeout logic of `execute_tool`: `asyncio.wait_for` delivers the result
of a coroutine completing within the budget and raises `TimeoutError` at the
budget boundary otherwise (`execute_tool` re-raises it); a non-coroutine entry
point is called directly, so it completes whenever it completes and the call
never returns if the entry point does not. -/
def execute_with_timeout (f : TimedEntry) : RunOutcome :=
  if f.isCoroutine then
    match f.time with
    | some t => if t ≤ timeout_budget then .completes t f.result else .timesOut timeout_budget
    | none => .timesOut timeout_budget
  else
    match f.time with
    | some t => .completes t f.result
    | none => .diverges

/-! ## The loader `ToolLoader.load_tool` -/

/-- The persisted tool record shape queried by `tool_loader.py`. -/
structure ToolRecord where
  tool_id : String
  name : String
  code : String
  input_schema : String
  tenants : List String
  active : Bool
deriving DecidableEq, Repr

/-- The Mongo query `{'tool_id': tid, 'active': True}` plus, when a tenant is
given, `'tenants': tenant` (array membership). -/
def recordMatches (tid : String) (tenant : Option String) (r : ToolRecord) : Bool :=
  r.tool_id = tid && r.active &&
    (match tenant with
     | none => true
     | some t => (r.tenants.contains t : Bool))

/-- Model of `ToolLoader.load_tool`: `find_one` returns the first matching
document; the method returns `None` both when nothing matches and on a query
exception — it never raises. -/
def load_tool (db : List ToolRecord) (tid : String) (tenant : Option String) :
    Option ToolRecord :=
  db.find? (recordMatches tid tenant)


/-! ## Concrete fixtures for witnesses and counterexamples -/

/-- A cache entry holding an already-compiled behaviour (execution fixtures). -/
def mkCT (tid : String) (p : Prog) : CompiledTool Prog :=
  { tool_id := tid, name := tid, func := p, input_schema := "{}",
    code_hash := "", compiled_at := 0 }

/-- Cycle fixture: tool `A` invokes `B` and tool `B` invokes `A`. -/
def cacheAB : Cache Prog :=
  [("A", mkCT "A" (.invoke "B" (.ret "a"))),
   ("B", mkCT "B" (.invoke "A" (.ret "b")))]

/-- Acyclic fixture: `A` invokes `B`, `B` invokes `C`, `C` returns. -/
def cacheABC : Cache Prog :=
  [("A", mkCT "A" (.invoke "B" (.ret "a"))),
   ("B", mkCT "B" (.invoke "C" (.ret "b"))),
   ("C", mkCT "C" (.ret "c"))]

/-- Fault fixture: tool `F`'s entry point raises an exception. -/
def cacheFault : Cache Prog := [("F", mkCT "F" (.raiseE "boom"))]

/-- A build function that always fails; the fixtures below never reach it. -/
def pyNone : String → Option Prog := fun _ => none

/-- A well-formed tool source accepted by the validator. -/
def demoCode : String := "def execute(context):\n    return 1\n"

/-- A compiled artifact for `demoCode`, cached under toolId `T`. -/
def ctDemo : CompiledTool Prog :=
  { tool_id := "T", name := "Demo", func := .ret "1", input_schema := "{}",
    code_hash := digestHex demoCode, compiled_at := 3 }

/-- A one-entry cache holding `ctDemo`. -/
def cacheDemo : Cache Prog := [("T", ctDemo)]

/-- The document whose digest matches the cached `ctDemo`. -/
def docDemo : ToolDoc :=
  { tool_id := "T", name := "Demo", code := demoCode, input_schema := "{}" }

/-- A changed document for toolId `T` whose new source hits the denylist. -/
def staleDoc : ToolDoc :=
  { tool_id := "T", name := "Demo",
    code := "import os\n\ndef execute(context):\n    return 1\n",
    input_schema := "{}" }

/-- The scenario source containing `import socket`. -/
def socketCode : String :=
  "import socket\n\ndef execute(context):\n    return socket\n"

/-- The document for the `import socket` scenario. -/
def socketDoc : ToolDoc :=
  { tool_id := "socket_tool", name := "Socket Tool", code := socketCode,
    input_schema := "{}" }

/-- A source defining the entry point twice. -/
def dupCode : String :=
  "def execute(a):\n    return 1\n\ndef execute(b):\n    return 2\n"

/-- The document for the duplicate-entry-point source. -/
def dupDoc : ToolDoc :=
  { tool_id := "dup", name := "Dup", code := dupCode, input_schema := "{}" }

/-- A one-record store with an active definition for toolId `X`. -/
def db0 : List ToolRecord :=
  [{ tool_id := "X", name := "X", code := demoCode, input_schema := "{}",
     tenants := ["t1"], active := true }]

/-! ## Helper lemmas about the execution interpreter -/

theorem runProg_stack (cache : Cache Prog) :
    ∀ (fuel : Nat) (p : Prog) (st : List String), (runProg cache fuel p st).stack = st := by
  intro fuel
  induction fuel with
  | zero => intro p st; rfl
  | succ fuel ih =>
    intro p st
    cases p with
    | ret v => rfl
    | raiseE m => rfl
    | invoke tid k =>
      simp only [runProg]
      split
      · rfl
      · rcases hE : cacheGet cache tid with _ | ct <;> simp only [hE]
        · simp [ih]
        · have hin := ih ct.func (st ++ [tid])
          rcases hO : (runProg cache fuel ct.func (st ++ [tid])).out with v | e | _ <;>
            simp [hO, hin, ih]
    | invokeCatch tid k hnd =>
      simp only [runProg]
      split
      · rfl
      · rcases hE : cacheGet cache tid with _ | ct <;> simp only [hE]
        · simp [ih]
        · have hin := ih ct.func (st ++ [tid])
          rcases hO : (runProg cache fuel ct.func (st ++ [tid])).out with v | e | _ <;>
            simp [hO, hin, ih]
theorem runProg_trace_nodup (cache : Cache Prog) :
    ∀ (fuel : Nat) (p : Prog) (st : List String), st.Nodup →
      ∀ s ∈ (runProg cache fuel p st).trace, s.Nodup := by
  intro fuel
  induction fuel with
  | zero => intro p st _ s hs; simp [runProg] at hs
  | succ fuel ih =>
    intro p st hst s hs
    cases p with
    | ret v => simp [runProg] at hs
    | raiseE m => simp [runProg] at hs
    | invoke tid k =>
      simp only [runProg] at hs
      by_cases hm : tid ∈ st
      · simp [hm] at hs
      · have hst1 : (st ++ [tid]).Nodup := by simp [List.nodup_append, hst, hm]
        simp only [if_neg hm] at hs
        rcases hE : cacheGet cache tid with _ | ct <;> simp only [hE] at hs
        · simp at hs
          subst hs; exact hst1
        · have hsk := runProg_stack cache fuel ct.func (st ++ [tid])
          rcases hO : (runProg cache fuel ct.func (st ++ [tid])).out with v | e | _ <;>
              simp only [hO, hsk] at hs <;> simp at hs
          · rcases hs with hs | hs | hs
            · subst hs; exact hst1
            · exact ih ct.func (st ++ [tid]) hst1 s hs
            · exact ih k st hst s hs
          · rcases hs with hs | hs
            · subst hs; exact hst1
            · exact ih ct.func (st ++ [tid]) hst1 s hs
          · rcases hs with hs | hs
            · subst hs; exact hst1
            · exact ih ct.func (st ++ [tid]) hst1 s hs
    | invokeCatch tid k hnd =>
      simp only [runProg] at hs
      by_cases hm : tid ∈ st
      · simp [hm] at hs
      · have hst1 : (st ++ [tid]).Nodup := by simp [List.nodup_append, hst, hm]
        simp only [if_neg hm] at hs
        rcases hE : cacheGet cache tid with _ | ct <;> simp only [hE] at hs
        · simp at hs
          rcases hs with hs | hs
          · subst hs; exact hst1
          · exact ih hnd st hst s hs
        · have hsk := runProg_stack cache fuel ct.func (st ++ [tid])
          rcases hO : (runProg cache fuel ct.func (st ++ [tid])).out with v | e | _ <;>
              simp only [hO, hsk] at hs <;> simp at hs
          · rcases hs with hs | hs | hs
            · subst hs; exact hst1
            · exact ih ct.func (st ++ [tid]) hst1 s hs
            · exact ih k st hst s hs
          · rcases hs with hs | hs | hs
            · subst hs; exact hst1
            · exact ih ct.func (st ++ [tid]) hst1 s hs
            · exact ih hnd st hst s hs
          · rcases hs with hs | hs
            · subst hs; exact hst1
            · exact ih ct.func (st ++ [tid]) hst1 s hs

theorem runProg_err_provenance (cache : Cache Prog) :
    ∀ (fuel : Nat) (p : Prog) (st : List String) (e : ExecErr),
      (runProg cache fuel p st).out = .err e →
        (∃ t, e = .toolNotCompiled t) ∨ (∃ ch, e = .circular ch) ∨ (∃ m, e = .fault m) := by
  intro fuel
  induction fuel with
  | zero => intro p st e h; simp [runProg] at h
  | succ fuel ih =>
    intro p st e h
    cases p with
    | ret v => simp [runProg] at h
    | raiseE m =>
      simp [runProg] at h
      exact Or.inr (Or.inr ⟨m, h.symm⟩)
    | invoke tid k =>
      simp only [runProg] at h
      by_cases hm : tid ∈ st
      · simp [hm] at h
        exact Or.inr (Or.inl ⟨chainStr st tid, h.symm⟩)
      · simp only [if_neg hm] at h
        rcases hE : cacheGet cache tid with _ | ct <;> simp only [hE] at h
        · simp at h
          exact Or.inl ⟨tid, h.symm⟩
        · rcases hO : (runProg cache fuel ct.func (st ++ [tid])).out with v | e' | _ <;>
            simp only [hO] at h
          · exact ih k _ e h
          · simp at h
            subst h
            exact ih ct.func (st ++ [tid]) e' hO
          · simp at h
    | invokeCatch tid k hnd =>
      simp only [runProg] at h
      by_cases hm : tid ∈ st
      · simp [hm] at h
        exact Or.inr (Or.inl ⟨chainStr st tid, h.symm⟩)
      · simp only [if_neg hm] at h
        rcases hE : cacheGet cache tid with _ | ct <;> simp only [hE] at h
        · simp at h
          exact ih hnd st e h
        · rcases hO : (runProg cache fuel ct.func (st ++ [tid])).out with v | e' | _ <;>
            simp only [hO] at h
          · exact ih k _ e h
          · exact ih hnd _ e h
          · simp at h

/-- Dict lookup after dict update finds the new binding. -/
theorem cacheGet_cacheSet {α : Type} (c : Cache α) (k : String) (v : CompiledTool α) :
    cacheGet (cacheSet c k v) k = some v := by
  induction c with
  | nil => simp [cacheSet, cacheGet, List.find?]
  | cons hd tl ih =>
    obtain ⟨k', v'⟩ := hd
    by_cases h : k' = k
    · subst h
      simp [cacheSet, cacheGet, List.find?]
    · simpa [cacheSet, h, cacheGet, List.find?] using ih

/-! ## The claims -/

/-- C1: `compile_tool` returns the previously cached `CompiledTool` unchanged,
with the cache untouched, exactly on a cache hit whose stored digest equals the
digest of the document's current source (first conjunct; neither the validator
nor the build function is consulted, since the result holds for every
`pyExec`).  When the entry is absent or its digest differs, the validator runs
(its failure is surfaced), the build runs, and on success the cache binding is
replaced by a new `CompiledTool` carrying the new digest and build result
(second conjunct).  On such a mismatch the returned tool is never the old
cached one (third conjunct). -/
theorem c1_cache_hit_and_rebuild {α : Type} (pyExec : String → Option α)
    (now : Nat) (cache : Cache α) (doc : ToolDoc) :
    (∀ ct, cacheGet cache doc.tool_id = some ct → ct.code_hash = digestHex doc.code →
        compile_tool pyExec now cache doc = (.ok ct, cache))
    ∧ ((∀ ct, cacheGet cache doc.tool_id = some ct → ct.code_hash ≠ digestHex doc.code) →
        (∀ e, validate_code_safety doc.code doc.tool_id = some e →
            compile_tool pyExec now cache doc = (.error (.validation e), cache))
        ∧ (validate_code_safety doc.code doc.tool_id = none →
            (pyExec doc.code = none →
              compile_tool pyExec now cache doc = (.error (.buildError doc.tool_id), cache))
            ∧ ∀ f, pyExec doc.code = some f →
              ∃ ct', compile_tool pyExec now cache doc = (.ok ct', cacheSet cache doc.tool_id ct')
                ∧ ct'.code_hash = digestHex doc.code ∧ ct'.func = f
                ∧ ct'.compiled_at = now
                ∧ get_compiled_tool (cacheSet cache doc.tool_id ct') doc.tool_id = some ct'))
    ∧ (∀ ct ct', cacheGet cache doc.tool_id = some ct → ct.code_hash ≠ digestHex doc.code →
        (compile_tool pyExec now cache doc).1 = .ok ct' → ct' ≠ ct) := by
  refine ⟨?_, ?_, ?_⟩
  · intro ct hct hh
    simp [compile_tool, hct, hh]
  · intro hmiss
    constructor
    · intro e he
      rcases hc : cacheGet cache doc.tool_id with _ | ct
      · simp [compile_tool, hc, he]
      · have := hmiss ct hc
        simp [compile_tool, hc, this, he]
    · intro hv
      constructor
      · intro hpe
        rcases hc : cacheGet cache doc.tool_id with _ | ct
        · simp [compile_tool, hc, hv, hpe]
        · have := hmiss ct hc
          simp [compile_tool, hc, this, hv, hpe]
      · intro f hf
        refine ⟨{ tool_id := doc.tool_id, name := doc.name, func := f,
                  input_schema := doc.input_schema, code_hash := digestHex doc.code,
                  compiled_at := now }, ?_, rfl, rfl, rfl, cacheGet_cacheSet ..⟩
        rcases hc : cacheGet cache doc.tool_id with _ | ct
        · simp [compile_tool, hc, hv, hf]
        · have := hmiss ct hc
          simp [compile_tool, hc, this, hv, hf]
  · intro ct ct' hct hh hok hcontra
    subst hcontra
    rcases hv : validate_code_safety doc.code doc.tool_id with _ | e
    · rcases hf : pyExec doc.code with _ | f
      · simp [compile_tool, hct, hh, hv, hf] at hok
      · simp [compile_tool, hct, hh, hv, hf] at hok
        have hfield := congrArg CompiledTool.code_hash hok
        simp at hfield
        exact hh hfield.symm
    · simp [compile_tool, hct, hh, hv] at hok

/-- Witness for C1 at a concrete input: a cache holding `ctDemo`, whose digest
matches `docDemo`'s source, is hit and the cached tool comes back unchanged
with the cache untouched — even though the supplied build function always
fails, so no rebuild can have happened. -/
theorem c1_witness :
    compile_tool pyNone 9 cacheDemo docDemo = (.ok ctDemo, cacheDemo) :=
  (c1_cache_hit_and_rebuild pyNone 9 cacheDemo docDemo).1 ctDemo (by decide) (by decide)

/-- C2 (corrected): a nested `call_tool` fails, with the chain text
`join(call_stack) ++ " -> " ++ toolId`, exactly when the callee is already on
the context's call stack — a stack that holds only nested callees, never the
top-level tool (first conjunct).  Hence `A→B→A` is not stopped at the re-entry
of `A`: the cycle is detected one call later and reported as `B -> A -> B`
(second conjunct), while the acyclic `A→B→C` succeeds (third conjunct). -/
theorem c2_cycle_detection :
    (∀ (cache : Cache Prog) (fuel : Nat) (tid : String) (k : Prog) (st : List String),
        tid ∈ st →
          runProg cache (fuel + 1) (.invoke tid k) st =
            ⟨.err (.circular (chainStr st tid)), st, []⟩)
    ∧ (execute_tool_run cacheAB 10 "A").1 = .err (.circular "B -> A -> B")
    ∧ (execute_tool_run cacheABC 10 "A").1 = .ok "a" := by
  refine ⟨?_, by decide, by decide⟩
  intro cache fuel tid k st hm
  simp [runProg, hm]

/-- Witness for C2 at a concrete input: invoking `B` while `B` is already on
the call stack fails at once with the chain `B -> B`. -/
theorem c2_witness :
    runProg cacheAB 5 (.invoke "B" (.ret "x")) ["B"] =
      ⟨.err (.circular "B -> B"), ["B"], []⟩ :=
  c2_cycle_detection.1 cacheAB 4 "B" (.ret "x") ["B"] (by decide)

/-- Counterexample to C2 as stated: in the tree rooted at `A` where `A` invokes
`B` and `B` re-invokes `A`, the nested invocation of `A` does not fail — the
push trace shows `A` admitted onto the stack after `B` — and the eventual
circular-dependency error carries the chain `B -> A -> B`, not the claimed
full chain `A -> B -> A`. -/
theorem c2_counterexample :
    (execute_tool_run cacheAB 10 "A").1 = .err (.circular "B -> A -> B")
    ∧ (execute_tool_run cacheAB 10 "A").2 = [["B"], ["B", "A"]]
    ∧ "B -> A -> B" ≠ "A -> B -> A" := by decide

/-- C3 (corrected): only a coroutine entry point runs under the fixed budget
`timeout=30` — it completes within the budget or the wait is aborted with the
timeout error exactly at the budget boundary (first conjunct).  A
non-coroutine entry point is called directly with no budget: it completes
whenever it completes, and the call never returns if it does not (second
conjunct). -/
theorem c3_timeout_budget (f : TimedEntry) :
    (f.isCoroutine = true →
      ((f.time = none ∨ ∃ t, f.time = some t ∧ timeout_budget < t) →
          execute_with_timeout f = .timesOut timeout_budget)
      ∧ (∀ t, f.time = some t → t ≤ timeout_budget →
          execute_with_timeout f = .completes t f.result))
    ∧ (f.isCoroutine = false →
      (∀ t, f.time = some t → execute_with_timeout f = .completes t f.result)
      ∧ (f.time = none → execute_with_timeout f = .diverges)) := by
  constructor
  · intro hc
    constructor
    · rintro (hn | ⟨t, ht, hgt⟩)
      · simp [execute_with_timeout, hc, hn]
      · simp [execute_with_timeout, hc, ht, Nat.not_le.mpr hgt]
    · intro t ht hle
      simp [execute_with_timeout, hc, ht, hle]
  · intro hc
    constructor
    · intro t ht
      simp [execute_with_timeout, hc, ht]
    · intro hn
      simp [execute_with_timeout, hc, hn]

/-- Witness for C3 at a concrete input: a coroutine entry point that never
completes is timed out at the budget boundary. -/
theorem c3_witness :
    execute_with_timeout ⟨true, none, .value "v"⟩ = .timesOut timeout_budget :=
  ((c3_timeout_budget ⟨true, none, .value "v"⟩).1 rfl).1 (Or.inl rfl)

/-- Counterexample to C3 as stated: a non-coroutine entry point completing at
instant 1000 — far past the budget of 30 it never yielded within — does not
fail with a timeout, and control returns at 1000, not near the boundary; one
that never completes returns no control at all instead of timing out. -/
theorem c3_counterexample :
    execute_with_timeout ⟨false, some 1000, .value "v"⟩ = .completes 1000 (.value "v")
    ∧ execute_with_timeout ⟨false, none, .value "v"⟩ = .diverges
    ∧ RunOutcome.completes 1000 (.value "v") ≠ .timesOut timeout_budget
    ∧ RunOutcome.diverges ≠ .timesOut timeout_budget
    ∧ timeout_budget < 1000 := by decide

/-- C4 (corrected): when no `CompiledTool` is cached for the toolId,
`execute_tool` fails immediately with the not-compiled `ValueError` — its type
gives it no access to a tool source, so nothing is compiled on the miss — and
the loader's `load_tool` returns `None`, rather than raising any not-found
error, exactly when no record matches `tool_id`, `active`, and the tenant
filter. -/
theorem c4_execute_requires_cache (cache : Cache Prog) (fuel : Nat) (tid : String)
    (h : cacheGet cache tid = none) :
    execute_tool_run cache fuel tid = (.err (.toolNotCompiled tid), [])
    ∧ ∀ (db : List ToolRecord) (tenant : Option String),
        (load_tool db tid tenant = none ↔
          ∀ r ∈ db, recordMatches tid tenant r = false) := by
  constructor
  · simp [execute_tool_run, h]
  · intro db tenant
    simp [load_tool, List.find?_eq_none]

/-- Witness for C4 at a concrete input: executing toolId `X` against an empty
cache fails with the not-compiled error. -/
theorem c4_witness :
    execute_tool_run ([] : Cache Prog) 5 "X" = (.err (.toolNotCompiled "X"), []) :=
  (c4_execute_requires_cache [] 5 "X" rfl).1

/-- Counterexample to C4 as stated: the store `db0` holds an active definition
for toolId `X` (so per the claim, `execute` should compile it on the miss and
run it, and `ToolNotFound` should not arise), yet `execute_tool` on a cold
cache fails — and with the not-compiled error, not the claim's `ToolNotFound`. -/
theorem c4_counterexample :
    (load_tool db0 "X" none).isSome = true
    ∧ (execute_tool_run ([] : Cache Prog) 5 "X").1 = .err (.toolNotCompiled "X")
    ∧ ExecErr.toolNotCompiled "X" ≠ ExecErr.toolNotFound "X" := by decide

/-- C5 (corrected): no outcome of the engine is the specification's
`ExecutionError` wrapper — the `except Exception` clause of `execute_tool`
only logs and re-raises — and an entry-point fault surfaces to the caller as
the original fault itself (second conjunct), while cycle errors keep their own
kind. -/
theorem c5_fault_propagation (cache : Cache Prog) (fuel : Nat) (p : Prog)
    (st : List String) (c : String) :
    ((runProg cache fuel p st).out ≠ .err (.executionError c))
    ∧ (∀ tid ct m fuel', cacheGet cache tid = some ct → ct.func = .raiseE m →
        fuel = fuel' + 1 →
        (execute_tool_run cache fuel tid).1 = .err (.fault m)) := by
  constructor
  · intro hcontra
    have h := runProg_err_provenance cache fuel p st (.executionError c) hcontra
    rcases h with ⟨t, ht⟩ | ⟨ch, ht⟩ | ⟨m, ht⟩ <;> exact ExecErr.noConfusion ht
  · intro tid ct m fuel' hct hfunc hfuel
    subst hfuel
    simp [execute_tool_run, hct, hfunc, runProg]

/-- Witness for C5 at a concrete input: tool `F`'s entry point raises `boom`,
and the engine surfaces exactly that fault. -/
theorem c5_witness :
    (execute_tool_run cacheFault 5 "F").1 = .err (.fault "boom") :=
  (c5_fault_propagation cacheFault 5 (.ret "") [] "boom").2
    "F" (mkCT "F" (.raiseE "boom")) "boom" 4 (by decide) rfl rfl

/-- Counterexample to C5 as stated: the fault `boom` raised by tool `F`
reaches the caller as the fault itself, which is not the wrapped
`ExecutionError` failure the claim requires. -/
theorem c5_counterexample :
    (execute_tool_run cacheFault 5 "F").1 = .err (.fault "boom")
    ∧ ExecErr.fault "boom" ≠ ExecErr.executionError "boom" := by decide

/-- C6: for all source text containing a denylisted construct — i.e. matched
by one of `dangerous_patterns` — validation fails with the `SecurityError`
naming the matched pattern; the hypothesis constrains only the denylist scan,
so the conclusion holds whatever the import-allowlist check and the
entry-point check would find: the denylist check comes first.  The named
pattern belongs to the denylist and indeed matches the (case-folded) source. -/
theorem c6_denylist_first (code toolId pat : String)
    (h : findDangerous code = some pat) :
    validate_code_safety code toolId = some (.dangerousPattern toolId pat)
    ∧ ∃ pr ∈ dangerous_patterns, pr.1 = pat
        ∧ searchPat pr.2 (code.data.map Char.toLower) = true := by
  constructor
  · simp [validate_code_safety, h]
  · simp only [findDangerous] at h
    rcases Option.map_eq_some'.mp h with ⟨pr, hfind, hfst⟩
    refine ⟨pr, List.mem_of_find?_eq_some hfind, hfst, ?_⟩
    have := List.find?_some hfind
    simpa using this

/-- Witness for C6 at a concrete input: a source that also has a
disallowed import and no entry point still fails on the denylisted
`import os`, demonstrating the check order. -/
theorem c6_witness :
    validate_code_safety "import os\nimport socket\n" "t"
      = some (.dangerousPattern "t" "import\\s+os\\b") :=
  (c6_denylist_first "import os\nimport socket\n" "t" "import\\s+os\\b" (by decide)).1

/-- C7: when the denylist scan passes, a source whose extracted imports
include any module outside the allowlist makes validation fail with the
`SecurityError` naming the first such module (first two conjuncts).  In
particular, compiling the scenario document whose source contains
`import socket` fails naming `socket` and leaves the empty cache empty, so
`get_compiled_tool` afterwards returns absent (last two conjuncts). -/
theorem c7_import_allowlist (code toolId m : String)
    (hd : findDangerous code = none)
    (hm : m ∈ findImports code)
    (hna : m ∉ allowed_imports) :
    ((findImports code).find? (fun x => !(allowed_imports.contains x))).isSome = true
    ∧ (∀ m', (findImports code).find? (fun x => !(allowed_imports.contains x)) = some m' →
        m' ∈ findImports code ∧ m' ∉ allowed_imports ∧
        validate_code_safety code toolId = some (.disallowedImport toolId m'))
    ∧ compile_tool pyNone 0 ([] : Cache Prog) socketDoc
        = (.error (.validation (.disallowedImport "socket_tool" "socket")), [])
    ∧ get_compiled_tool ((compile_tool pyNone 0 ([] : Cache Prog) socketDoc).2) "socket_tool"
        = none := by
  refine ⟨?_, ?_, by decide, by decide⟩
  · rw [List.find?_isSome]
    exact ⟨m, hm, by simp [hna]⟩
  · intro m' hfind
    refine ⟨List.mem_of_find?_eq_some hfind, ?_, ?_⟩
    · have := List.find?_some hfind
      simpa using this
    · simp only [validate_code_safety, hd]
      rw [hfind]

/-- Witness for C7 at a concrete input: the `import socket` scenario source
fails validation naming `socket`. -/
theorem c7_witness :
    "socket" ∈ findImports socketCode
    ∧ "socket" ∉ allowed_imports
    ∧ validate_code_safety socketCode "socket_tool"
        = some (.disallowedImport "socket_tool" "socket") :=
  (c7_import_allowlist socketCode "socket_tool" "socket" (by decide) (by decide)
      (by decide)).2.1 "socket" (by decide)

/-- C8 (corrected): with the denylist and allowlist checks passing, validation
fails with the structural `ValueError` exactly when the source lacks the
substring `def execute(` — presence of the designated entry point is required,
but not its uniqueness. -/
theorem c8_entry_point_presence (code toolId : String)
    (hd : findDangerous code = none)
    (hi : (findImports code).find? (fun m => !(allowed_imports.contains m)) = none) :
    (containsSub "def execute(".data code.data = false →
        validate_code_safety code toolId = some (.missingExecute toolId))
    ∧ (validate_code_safety code toolId = none ↔
        containsSub "def execute(".data code.data = true) := by
  have hbody : validate_code_safety code toolId =
      (if containsSub "def execute(".data code.data then none
       else some (.missingExecute toolId)) := by
    simp only [validate_code_safety, hd]
    rw [hi]
  constructor
  · intro hc
    rw [hbody, hc]
    simp
  · rw [hbody]
    cases hc : containsSub "def execute(".data code.data <;> simp

/-- Witness for C8 at a concrete input: a source with no entry point fails
with the structural violation. -/
theorem c8_witness :
    validate_code_safety "x = 1\n" "t" = some (.missingExecute "t") :=
  (c8_entry_point_presence "x = 1\n" "t" (by decide) (by decide)).1 (by decide)

set_option maxRecDepth 4000 in
/-- Counterexample to C8 as stated: `dupCode` defines the entry point twice —
not exactly once — yet validation succeeds and compiling it produces an
invocable tool. -/
theorem c8_counterexample :
    countSub "def execute(".data dupCode.data = 2
    ∧ validate_code_safety dupCode "dup" = none
    ∧ (compile_tool (fun _ => some (Prog.ret "r")) 0 ([] : Cache Prog) dupDoc).1
        = .ok { tool_id := "dup", name := "Dup", func := .ret "r",
                input_schema := "{}", code_hash := digestHex dupCode,
                compiled_at := 0 } := by
  decide

/-- C9: every run of an entry-point behaviour leaves the context's call stack
exactly as it found it — pushes are popped on success and failure alike — and,
starting from a duplicate-free stack (the top-level context starts empty),
every stack state pushed during the run is duplicate-free: no toolId ever
repeats on the call stack. -/
theorem c9_call_stack_invariant (cache : Cache Prog) (fuel : Nat) (p : Prog)
    (st : List String) :
    (runProg cache fuel p st).stack = st
    ∧ (st.Nodup → ∀ s ∈ (runProg cache fuel p st).trace, s.Nodup) :=
  ⟨runProg_stack cache fuel p st, runProg_trace_nodup cache fuel p st⟩

/-- Witness for C9 at a concrete input: the `A→B→C` run restores the empty
stack, and the deepest pushed stack `[B, C]` (a member of its push trace) has
no duplicates. -/
theorem c9_witness :
    (runProg cacheABC 10 (.invoke "B" (.ret "a")) []).stack = []
    ∧ (["B", "C"] : List String).Nodup :=
  ⟨(c9_call_stack_invariant cacheABC 10 (.invoke "B" (.ret "a")) []).1,
   (c9_call_stack_invariant cacheABC 10 (.invoke "B" (.ret "a")) []).2 (by decide)
     ["B", "C"] (by decide)⟩

/-- C10: whenever `compile_tool` fails — denylist or allowlist violation,
missing entry point, or build failure — the cache after the call is exactly
the cache before it; in particular a `CompiledTool` previously cached for the
same toolId under an older digest is still returned by `get_compiled_tool`. -/
theorem c10_failed_compile_preserves_cache {α : Type} (pyExec : String → Option α)
    (now : Nat) (cache : Cache α) (doc : ToolDoc) (e : CompileErr)
    (h : (compile_tool pyExec now cache doc).1 = .error e) :
    (compile_tool pyExec now cache doc).2 = cache
    ∧ ∀ ct, cacheGet cache doc.tool_id = some ct →
        get_compiled_tool (compile_tool pyExec now cache doc).2 doc.tool_id = some ct := by
  have hc2 : (compile_tool pyExec now cache doc).2 = cache := by
    rcases hc : cacheGet cache doc.tool_id with _ | ct
    · rcases hv : validate_code_safety doc.code doc.tool_id with _ | e'
      · rcases hf : pyExec doc.code with _ | f
        · simp [compile_tool, hc, hv, hf]
        · simp [compile_tool, hc, hv, hf] at h
      · simp [compile_tool, hc, hv]
    · by_cases hh : ct.code_hash = digestHex doc.code
      · simp [compile_tool, hc, hh] at h
      · rcases hv : validate_code_safety doc.code doc.tool_id with _ | e'
        · rcases hf : pyExec doc.code with _ | f
          · simp [compile_tool, hc, hh, hv, hf]
          · simp [compile_tool, hc, hh, hv, hf] at h
        · simp [compile_tool, hc, hh, hv]
  exact ⟨hc2, fun ct hct => by rw [hc2]; exact hct⟩

set_option maxRecDepth 4000 in
/-- Witness for C10 at a concrete input: recompiling toolId `T` from a changed
source that violates the denylist fails, leaves the cache as it was, and
`get_compiled_tool` still returns the stale `ctDemo` compiled from the old
source. -/
theorem c10_witness :
    (compile_tool pyNone 9 cacheDemo staleDoc).2 = cacheDemo
    ∧ get_compiled_tool (compile_tool pyNone 9 cacheDemo staleDoc).2 "T" = some ctDemo := by
  have h := c10_failed_compile_preserves_cache pyNone 9 cacheDemo staleDoc
      (.validation (.dangerousPattern "T" "import\\s+os\\b")) (by decide)
  exact ⟨h.1, h.2 ctDemo (by decide)⟩

end McpServer
